import Mathlib

/-!
Shallow embedding of the sliding-window rate limiter in
`backend/app/middleware/rate_limiter.py` (class `RateLimiterMiddleware`),
together with proofs of the specification's claims about it.

Modelling notes:
* Time values (`time.time()` truncated to `int`) are `Int`.
* A Redis sorted set stored under one rate-limit key is modelled as the
  list of its scores (`ZSet := List Int`).  In the source, every member
  ever written to such a key is `str(current_time)` with score
  `current_time` (one call site, `pipe.zadd(key, {str(current_time):
  current_time})`), and `str` is injective on integers, so a member is
  represented by its score.  `ZADD` on an already-present member only
  updates its score, which is a no-op here because the member determines
  the score; hence `zadd` is insert-if-absent.
* The store (`redis_client`) is a total map from key strings to key
  states; a key that was never written holds the empty state.
* `except Exception` around the pipeline is modelled by the boolean
  `storeFails`: when it is `true` every store operation raises and the
  handler returns the fail-open triple, leaving the store untouched.
-/

namespace RateLimiter

/-- An endpoint policy: `{"requests": MaxRequests, "window": WindowSeconds}`. -/
structure Limits where
  requests : Nat
  window : Nat
deriving DecidableEq

/-- The table `self.endpoint_limits` built in `__init__`. -/
def endpointLimits : List (String × Limits) :=
  [("/api/v1/auth/login", ⟨5, 60⟩),
   ("/api/v1/auth/register", ⟨3, 60⟩),
   ("/api/v1/projects", ⟨50, 60⟩),
   ("/api/v1/tasks", ⟨100, 60⟩)]

/-- Lookup `_get_endpoint_limits`: `self.endpoint_limits.get(path, {"requests":
self.default_requests, "window": self.default_window})`. -/
def getEndpointLimits (defaultRequests defaultWindow : Nat) (path : String) : Limits :=
  match endpointLimits.lookup path with
  | some l => l
  | none => ⟨defaultRequests, defaultWindow⟩

/-- Scores of one Redis sorted set (see the modelling notes). -/
abbrev ZSet := List Int

/-- Redis `ZREMRANGEBYSCORE key lo hi`: removes members whose score lies in
the inclusive range `[lo, hi]`. -/
def zremrangebyscore (lo hi : Int) (s : ZSet) : ZSet :=
  s.filter (fun t => decide ¬(lo ≤ t ∧ t ≤ hi))

/-- Redis `ZCARD key`: number of members. -/
def zcard (s : ZSet) : Nat := s.length

/-- Redis `ZADD key {str(t): t}`: inserts the member if absent; when present
it only updates the score, a no-op here (member determines score). -/
def zadd (t : Int) (s : ZSet) : ZSet :=
  if t ∈ s then s else s ++ [t]

/-- State stored under one rate-limit key: its sorted set and the ttl last
set by `EXPIRE` (`none` when never set). -/
structure KeyState where
  members : ZSet
  ttl : Option Nat
deriving DecidableEq

def KeyState.empty : KeyState := ⟨[], none⟩

/-- The Redis keyspace restricted to rate-limit keys. -/
def Store := String → KeyState

/-- Write one key of the store. -/
def Store.set (st : Store) (k : String) (v : KeyState) : Store :=
  fun q => if q = k then v else st q

def emptyStore : Store := fun _ => KeyState.empty

/-- The key `f"rate_limit:{client_id}:{endpoint}"`. -/
def rateLimitKey (clientId endpoint : String) : String :=
  "rate_limit:" ++ clientId ++ ":" ++ endpoint

/-- The `(is_allowed, current_count, reset_time)` triple returned by
`_check_rate_limit`. -/
structure CheckResult where
  isAllowed : Bool
  currentCount : Nat
  resetTime : Int
deriving DecidableEq

/-- The transactional pipeline body of `_check_rate_limit` acting on the
state of one key: trim scores in `[0, window_start]`, count, add the
current timestamp, set the expiry; `current_count = results[1] + 1` and
`is_allowed = current_count <= max_requests`. -/
def checkPipeline (maxRequests window : Nat) (now : Int) (ks : KeyState) :
    CheckResult × KeyState :=
  let windowStart := now - (window : Int)
  let trimmed := zremrangebyscore 0 windowStart ks.members
  let inWindow := zcard trimmed
  let currentCount := inWindow + 1
  (⟨decide (currentCount ≤ maxRequests), currentCount, now + (window : Int)⟩,
   ⟨zadd now trimmed, some window⟩)

/-- Model of `_check_rate_limit`: runs the pipeline on the key
`rate_limit:{client_id}:{endpoint}`; on any store error it returns
`(True, 0, current_time + window)` without touching the store. -/
def checkRateLimit (storeFails : Bool) (st : Store) (clientId endpoint : String)
    (maxRequests window : Nat) (now : Int) : CheckResult × Store :=
  if storeFails then
    (⟨true, 0, now + (window : Int)⟩, st)
  else
    let key := rateLimitKey clientId endpoint
    let r := checkPipeline maxRequests window now (st key)
    (r.1, st.set key r.2)

/-- The fields of an incoming request that the middleware reads.
`clientIp` is `request.client.host` after the `"unknown"` fallback;
`userAgentHash` is Python's `hash(user_agent)`. -/
structure Request where
  path : String
  clientIp : String
  userAgentHash : Int

/-- Client id per `_get_client_id`: `f"{client_ip}:{hash(user_agent)}"`. -/
def getClientId (req : Request) : String :=
  req.clientIp ++ ":" ++ toString req.userAgentHash

/-- The path allowlist tested first in `dispatch`. -/
def exemptPaths : List String := ["/health", "/metrics", "/docs", "/redoc"]

/-- The ip allowlist of `_is_exempt_user`. -/
def exemptIps : List String := ["127.0.0.1", "localhost"]

def isExemptUser (req : Request) : Bool := req.clientIp ∈ exemptIps

/-- An HTTP response: status, body, and the four headers the middleware
may set (`none` = header absent). -/
structure Response where
  statusCode : Nat
  body : String
  xLimit : Option String
  xRemaining : Option String
  xReset : Option String
  retryAfter : Option String
deriving DecidableEq

/-- Outcome of `dispatch`: the response sent, the store afterwards, and
whether `call_next` (the downstream handler) ran. -/
structure DispatchResult where
  response : Response
  store : Store
  handlerCalled : Bool

/-- Model of `dispatch`, parameterised by the response `handler` that `call_next`
would produce.  Exempt paths and exempt ips return the handler response
untouched; otherwise the rate check either rejects with a fixed 429
response or forwards and stamps the quota headers onto the handler
response. -/
def dispatch (storeFails : Bool) (defaultRequests defaultWindow : Nat)
    (handler : Response) (req : Request) (st : Store) (now : Int) : DispatchResult :=
  if req.path ∈ exemptPaths then
    ⟨handler, st, true⟩
  else if isExemptUser req then
    ⟨handler, st, true⟩
  else
    let limits := getEndpointLimits defaultRequests defaultWindow req.path
    let r := checkRateLimit storeFails st (getClientId req) req.path
      limits.requests limits.window now
    if r.1.isAllowed = false then
      (⟨⟨429, "\x7b\"detail\": \"Rate limit exceeded\"\x7d",
        some (toString limits.requests), some "0",
        some (toString r.1.resetTime), some (toString (r.1.resetTime - now))⟩,
       r.2, false⟩)
    else
      (⟨{ handler with
          xLimit := some (toString limits.requests),
          xRemaining := some (toString ((limits.requests : Int) - (r.1.currentCount : Int))),
          xReset := some (toString r.1.resetTime) },
       r.2, true⟩)

/-- Run a sequence of rate checks (one per listed timestamp) for one key,
threading the store; returns the list of triples and the final store. -/
def runChecks (st : Store) (clientId endpoint : String)
    (maxRequests window : Nat) : List Int → List CheckResult × Store
  | [] => ([], st)
  | t :: ts =>
    let r := checkRateLimit false st clientId endpoint maxRequests window t
    let rest := runChecks r.2 clientId endpoint maxRequests window ts
    (r.1 :: rest.1, rest.2)

/-! ## General lemmas about the store and the pipeline -/

theorem Store.set_self (st : Store) (k : String) (v : KeyState) :
    st.set k v k = v := by
  simp [Store.set]

theorem Store.set_other (st : Store) (k q : String) (v : KeyState) (h : q ≠ k) :
    st.set k v q = st q := by
  simp [Store.set, h]

theorem mem_zadd (a t : Int) (s : ZSet) : a ∈ zadd t s ↔ a ∈ s ∨ a = t := by
  unfold zadd
  split
  · constructor
    · exact fun h => Or.inl h
    · rintro (h | rfl) <;> assumption
  · simp [List.mem_append]

theorem getEndpointLimits_eq_default (dr dw : Nat) (p : String)
    (h1 : p ≠ "/api/v1/auth/login") (h2 : p ≠ "/api/v1/auth/register")
    (h3 : p ≠ "/api/v1/projects") (h4 : p ≠ "/api/v1/tasks") :
    getEndpointLimits dr dw p = ⟨dr, dw⟩ := by
  have e1 : (p == "/api/v1/auth/login") = false := beq_eq_false_iff_ne.mpr h1
  have e2 : (p == "/api/v1/auth/register") = false := beq_eq_false_iff_ne.mpr h2
  have e3 : (p == "/api/v1/projects") = false := beq_eq_false_iff_ne.mpr h3
  have e4 : (p == "/api/v1/tasks") = false := beq_eq_false_iff_ne.mpr h4
  simp [getEndpointLimits, endpointLimits, List.lookup, e1, e2, e3, e4]

theorem getEndpointLimits_window_pos (dr dw : Nat) (p : String) (h : 0 < dw) :
    0 < (getEndpointLimits dr dw p).window := by
  by_cases h1 : p = "/api/v1/auth/login"
  · subst h1; exact (by decide : (0 : Nat) < 60)
  by_cases h2 : p = "/api/v1/auth/register"
  · subst h2; exact (by decide : (0 : Nat) < 60)
  by_cases h3 : p = "/api/v1/projects"
  · subst h3; exact (by decide : (0 : Nat) < 60)
  by_cases h4 : p = "/api/v1/tasks"
  · subst h4; exact (by decide : (0 : Nat) < 60)
  rw [getEndpointLimits_eq_default dr dw p h1 h2 h3 h4]
  exact h

theorem checkRateLimit_fst (st : Store) (c p : String) (m w : Nat) (now : Int) :
    (checkRateLimit false st c p m w now).1 =
      (checkPipeline m w now (st (rateLimitKey c p))).1 := rfl

theorem checkRateLimit_store_self (st : Store) (c p : String) (m w : Nat) (now : Int) :
    (checkRateLimit false st c p m w now).2 (rateLimitKey c p) =
      (checkPipeline m w now (st (rateLimitKey c p))).2 := by
  show Store.set st (rateLimitKey c p) _ (rateLimitKey c p) = _
  rw [Store.set_self]

theorem checkRateLimit_store_other (st : Store) (c p q : String) (m w : Nat)
    (now : Int) (h : q ≠ rateLimitKey c p) :
    (checkRateLimit false st c p m w now).2 q = st q := by
  show Store.set st (rateLimitKey c p) _ q = _
  rw [Store.set_other _ _ _ _ h]

theorem zadd_nodup (t : Int) (s : ZSet) (h : s.Nodup) : (zadd t s).Nodup := by
  unfold zadd
  split
  · exact h
  · rename_i hmem
    rw [List.nodup_append]
    refine ⟨h, List.nodup_singleton t, ?_⟩
    intro a ha hb
    simp only [List.mem_singleton] at hb
    subst hb
    exact hmem ha

theorem trim_self_mem (w : Nat) (now : Int) (hw : 0 < w) :
    (decide ¬((0:Int) ≤ now ∧ now ≤ now - (w : Int))) = true := by
  rw [decide_eq_true_eq]
  have : (1 : Int) ≤ (w : Int) := by exact_mod_cast hw
  omega

theorem zadd_mem_eq (t : Int) (s : ZSet) (h : t ∈ s) : zadd t s = s := by
  unfold zadd
  exact if_pos h

theorem trim_idem (lo hi : Int) (s : ZSet) :
    zremrangebyscore lo hi (zremrangebyscore lo hi s) = zremrangebyscore lo hi s := by
  unfold zremrangebyscore
  refine List.filter_eq_self.mpr ?_
  intro a ha
  exact (List.mem_filter.mp ha).2


theorem scenario_step (c p : String) (N W a : Nat) (haW : a < W) (st : Store)
    (hst : (st (rateLimitKey c p)).members = (List.range a).map (fun i : Nat => (i : Int))) :
    checkRateLimit false st c p N W (a : Int) =
      (⟨decide (a + 1 ≤ N), a + 1, (a : Int) + (W : Int)⟩,
       st.set (rateLimitKey c p)
         ⟨(List.range (a + 1)).map (fun i : Nat => (i : Int)), some W⟩) := by
  have htrim : zremrangebyscore 0 ((a : Int) - (W : Int))
      ((List.range a).map (fun i : Nat => (i : Int))) =
      (List.range a).map (fun i : Nat => (i : Int)) := by
    refine List.filter_eq_self.mpr ?_
    intro x hx
    rcases List.mem_map.mp hx with ⟨j, hj, rfl⟩
    rw [decide_eq_true_eq]
    have hja : j < a := List.mem_range.mp hj
    omega
  have hmem : ((a : Nat) : Int) ∉ (List.range a).map (fun i : Nat => (i : Int)) := by
    intro hmem
    rcases List.mem_map.mp hmem with ⟨j, hj, hja⟩
    have hj2 : j = a := by exact_mod_cast hja
    have := List.mem_range.mp hj
    omega
  have hadd : zadd ((a : Nat) : Int) ((List.range a).map (fun i : Nat => (i : Int))) =
      (List.range (a + 1)).map (fun i : Nat => (i : Int)) := by
    unfold zadd
    rw [if_neg hmem, List.range_succ, List.map_append]
    rfl
  have hks : checkPipeline N W ((a : Nat) : Int) (st (rateLimitKey c p)) =
      (⟨decide (a + 1 ≤ N), a + 1, (a : Int) + (W : Int)⟩,
       ⟨(List.range (a + 1)).map (fun i : Nat => (i : Int)), some W⟩) := by
    unfold checkPipeline
    simp only [hst, htrim, hadd, zcard, List.length_map, List.length_range]
  show ((checkPipeline N W ((a : Nat) : Int) (st (rateLimitKey c p))).1,
    st.set (rateLimitKey c p)
      (checkPipeline N W ((a : Nat) : Int) (st (rateLimitKey c p))).2) = _
  rw [hks]

theorem scenario_run (c p : String) (N W : Nat) (hNW : N < W) :
    ∀ (k a : Nat), a + k ≤ N + 1 → ∀ st : Store,
      (st (rateLimitKey c p)).members = (List.range a).map (fun i : Nat => (i : Int)) →
      (runChecks st c p N W
          ((List.range k).map (fun i : Nat => ((a + i : Nat) : Int)))).1 =
        (List.range k).map
          (fun i => ⟨decide (a + i + 1 ≤ N), a + i + 1, ((a + i : Nat) : Int) + (W : Int)⟩) := by
  intro k
  induction k with
  | zero => intro a _ st _; rfl
  | succ k ih =>
    intro a hak st hst
    rw [List.range_succ_eq_map, List.map_cons, List.map_cons, List.map_map, List.map_map]
    have hstep := scenario_step c p N W a (by omega) st hst
    rw [runChecks]
    simp only [Nat.add_zero, hstep]
    have hread : ((st.set (rateLimitKey c p)
        ⟨(List.range (a + 1)).map (fun i : Nat => (i : Int)), some W⟩) (rateLimitKey c p)).members =
        (List.range (a + 1)).map (fun i : Nat => (i : Int)) := by
      rw [Store.set_self]
    have hih := ih (a + 1) (by omega) _ hread
    have hts : (List.range k).map ((fun i : Nat => ((a + i : Nat) : Int)) ∘ Nat.succ) =
        (List.range k).map (fun i : Nat => ((a + 1 + i : Nat) : Int)) := by
      refine List.map_congr_left ?_
      intro i _
      show ((a + (i + 1) : Nat) : Int) = ((a + 1 + i : Nat) : Int)
      congr 1
      omega
    rw [hts, hih]
    have hres : (List.range k).map
        ((fun i => (⟨decide (a + i + 1 ≤ N), a + i + 1,
          ((a + i : Nat) : Int) + (W : Int)⟩ : CheckResult)) ∘ Nat.succ) =
        (List.range k).map
          (fun i => (⟨decide (a + 1 + i + 1 ≤ N), a + 1 + i + 1,
            ((a + 1 + i : Nat) : Int) + (W : Int)⟩ : CheckResult)) := by
      refine List.map_congr_left ?_
      intro i _
      show (⟨decide (a + (i + 1) + 1 ≤ N), a + (i + 1) + 1,
        ((a + (i + 1) : Nat) : Int) + (W : Int)⟩ : CheckResult) = _
      have he : a + (i + 1) = a + 1 + i := by omega
      rw [he]
    rw [hres]

/-! ## Claim theorems -/

/-- C1: admission at the limit boundary — a request whose computed
currentCount (in-window stored timestamps plus one for itself) equals
MaxRequests is admitted and one whose currentCount exceeds MaxRequests is
rejected; consequently, for policy (N, W) with N < W, N+1 requests at
consecutive seconds 0..N (all inside one window) see the first N admitted
and the (N+1)th rejected. -/
theorem limit_boundary_admission (st : Store) (c p : String)
    (maxRequests w : Nat) (now : Int) (N W : Nat) (hNW : N < W) :
    ((checkRateLimit false st c p maxRequests w now).1.currentCount = maxRequests →
      (checkRateLimit false st c p maxRequests w now).1.isAllowed = true) ∧
    (maxRequests < (checkRateLimit false st c p maxRequests w now).1.currentCount →
      (checkRateLimit false st c p maxRequests w now).1.isAllowed = false) ∧
    (∀ i, i < N →
      ((runChecks emptyStore c p N W
          ((List.range (N + 1)).map (fun i : Nat => (i : Int)))).1.map
        (fun r => r.isAllowed))[i]? = some true) ∧
    ((runChecks emptyStore c p N W
        ((List.range (N + 1)).map (fun i : Nat => (i : Int)))).1.map
      (fun r => r.isAllowed))[N]? = some false := by
  have e : (checkRateLimit false st c p maxRequests w now).1.isAllowed =
      decide ((checkRateLimit false st c p maxRequests w now).1.currentCount ≤
        maxRequests) := rfl
  have htimes : (List.range (N + 1)).map (fun i : Nat => ((0 + i : Nat) : Int)) =
      (List.range (N + 1)).map (fun i : Nat => (i : Int)) := by
    refine List.map_congr_left ?_
    intro i _
    norm_num
  have hrun := scenario_run c p N W hNW (N + 1) 0 (by omega) emptyStore rfl
  rw [htimes] at hrun
  have hclosed : (runChecks emptyStore c p N W
      ((List.range (N + 1)).map (fun i : Nat => (i : Int)))).1.map
        (fun r => r.isAllowed) =
      (List.range (N + 1)).map (fun i : Nat => decide (i + 1 ≤ N)) := by
    rw [hrun, List.map_map]
    refine List.map_congr_left ?_
    intro i _
    simp
  refine ⟨?_, ?_, ?_, ?_⟩
  · intro h
    rw [e, h]
    simp
  · intro h
    rw [e]
    simp only [decide_eq_false_iff_not]
    omega
  · intro i hi
    rw [hclosed, List.getElem?_map, List.getElem?_range (by omega : i < N + 1)]
    have h1 : i + 1 ≤ N := by omega
    show some (decide (i + 1 ≤ N)) = some true
    rw [decide_eq_true h1]
  · rw [hclosed, List.getElem?_map, List.getElem?_range (by omega : N < N + 1)]
    have h1 : ¬(N + 1 ≤ N) := by omega
    show some (decide (N + 1 ≤ N)) = some false
    rw [decide_eq_false h1]

theorem limit_boundary_admission_witness :
    2 < 60 ∧
    ((runChecks emptyStore "c" "/p" 2 60
        ((List.range 3).map (fun i : Nat => (i : Int)))).1.map
      (fun r => r.isAllowed))[2]? = some false ∧
    ((runChecks emptyStore "c" "/p" 2 60
        ((List.range 3).map (fun i : Nat => (i : Int)))).1.map
      (fun r => r.isAllowed))[0]? = some true := by
  refine ⟨by decide, ?_, ?_⟩
  · exact (limit_boundary_admission emptyStore "c" "/p" 1 1 0 2 60
      (by decide)).2.2.2
  · exact (limit_boundary_admission emptyStore "c" "/p" 1 1 0 2 60
      (by decide)).2.2.1 0 (by decide)



/-- C10: policy lookup is exact string equality on the full path — an item
path below the projects or tasks collection, or a configured path with a
trailing slash, falls back to the default policy (100, 60) instead of the
stricter configured one. -/
theorem endpoint_policy_exact_match_only :
    getEndpointLimits 100 60 "/api/v1/projects/5" = ⟨100, 60⟩ ∧
    getEndpointLimits 100 60 "/api/v1/tasks/12" = ⟨100, 60⟩ ∧
    getEndpointLimits 100 60 "/api/v1/auth/login/" = ⟨100, 60⟩ ∧
    getEndpointLimits 100 60 "/api/v1/projects/" = ⟨100, 60⟩ ∧
    getEndpointLimits 100 60 "/api/v1/projects" = ⟨50, 60⟩ ∧
    getEndpointLimits 100 60 "/api/v1/auth/login" = ⟨5, 60⟩ := by
  decide

/-- C7: the policy table yields (5, 60) for login, (3, 60) for register,
(50, 60) for the projects collection, (100, 60) for the tasks collection,
and the default policy — (100, 60) under the constructor defaults — for
every other path; the lookup is a pure function of the path. -/
theorem endpoint_policy_table (dr dw : Nat) (p : String)
    (h1 : p ≠ "/api/v1/auth/login") (h2 : p ≠ "/api/v1/auth/register")
    (h3 : p ≠ "/api/v1/projects") (h4 : p ≠ "/api/v1/tasks") :
    getEndpointLimits dr dw "/api/v1/auth/login" = ⟨5, 60⟩ ∧
    getEndpointLimits dr dw "/api/v1/auth/register" = ⟨3, 60⟩ ∧
    getEndpointLimits dr dw "/api/v1/projects" = ⟨50, 60⟩ ∧
    getEndpointLimits dr dw "/api/v1/tasks" = ⟨100, 60⟩ ∧
    getEndpointLimits dr dw p = ⟨dr, dw⟩ ∧
    getEndpointLimits 100 60 p = ⟨100, 60⟩ := by
  refine ⟨rfl, rfl, rfl, rfl, ?_, ?_⟩ <;>
    exact getEndpointLimits_eq_default _ _ p h1 h2 h3 h4

theorem endpoint_policy_table_witness :
    ("/other" : String) ≠ "/api/v1/auth/login" ∧
    getEndpointLimits 7 9 "/other" = ⟨7, 9⟩ := by
  refine ⟨by decide, ?_⟩
  exact (endpoint_policy_table 7 9 "/other" (by decide) (by decide) (by decide)
    (by decide)).2.2.2.2.1

/-- C2 counterexample: with window 60 at time 100 (windowStart = 40), a
stored timestamp exactly equal to windowStart is removed by the trim and
does not count: against limit 1 the request is admitted with count 1,
whereas the claim (timestamp kept and counted) would give count 2 and a
rejection. -/
theorem window_start_kept_counterexample :
    (checkRateLimit false (emptyStore.set (rateLimitKey "c" "/p") ⟨[40], none⟩)
        "c" "/p" 1 60 100).1 = ⟨true, 1, 160⟩ ∧
    (40 : Int) ∉ ((checkRateLimit false
        (emptyStore.set (rateLimitKey "c" "/p") ⟨[40], none⟩)
        "c" "/p" 1 60 100).2 (rateLimitKey "c" "/p")).members := by
  decide

/-- C2 amended: the trim removes exactly the stored timestamps t with
0 ≤ t ≤ windowStart (ZREMRANGEBYSCORE is inclusive at both ends), so a
timestamp equal to windowStart is removed and does not count; among
nonnegative stored timestamps, exactly those strictly greater than
windowStart survive and count. -/
theorem window_start_removed (ks : KeyState) (maxRequests w : Nat) (now : Int)
    (h0 : 0 < w) (h1 : 0 ≤ now - (w : Int)) :
    (checkPipeline maxRequests w now ks).2.members =
      zadd now (ks.members.filter (fun t => decide ¬(0 ≤ t ∧ t ≤ now - (w : Int)))) ∧
    (checkPipeline maxRequests w now ks).1.currentCount =
      (ks.members.filter (fun t => decide ¬(0 ≤ t ∧ t ≤ now - (w : Int)))).length + 1 ∧
    (now - (w : Int)) ∉ (checkPipeline maxRequests w now ks).2.members ∧
    (∀ t ∈ ks.members, 0 ≤ t →
      (t ∈ zremrangebyscore 0 (now - (w : Int)) ks.members ↔ now - (w : Int) < t)) := by
  refine ⟨rfl, rfl, ?_, ?_⟩
  · intro hmem
    rw [show (checkPipeline maxRequests w now ks).2.members =
        zadd now (zremrangebyscore 0 (now - (w : Int)) ks.members) from rfl,
      mem_zadd] at hmem
    rcases hmem with hmem | hmem
    · rcases List.mem_filter.mp hmem with ⟨-, hp⟩
      rw [decide_eq_true_eq] at hp
      exact hp ⟨h1, le_refl _⟩
    · have : (w : Int) = 0 := by omega
      have : 0 < (w : Int) := by exact_mod_cast h0
      omega
  · intro t ht h0t
    unfold zremrangebyscore
    rw [List.mem_filter]
    constructor
    · rintro ⟨-, hp⟩
      rw [decide_eq_true_eq] at hp
      omega
    · intro hlt
      refine ⟨ht, ?_⟩
      rw [decide_eq_true_eq]
      omega

theorem window_start_removed_witness :
    0 < 60 ∧ (0 : Int) ≤ 100 - (60 : Nat) ∧
    (100 - ((60 : Nat) : Int)) ∉ (checkPipeline 1 60 100 ⟨[40], none⟩).2.members := by
  refine ⟨by decide, by decide, ?_⟩
  exact (window_start_removed ⟨[40], none⟩ 1 60 100 (by decide) (by decide)).2.2.1

/-- C3: the failing input for the 2×N concurrency property.  With
MaxRequests = 2 and window 60, four requests for one key all recorded at
the same second (each check an atomic pipeline, as the transactional
pipeline in the source makes it) are all admitted — the member
str(current_time) collapses same-second requests to a single stored entry
— instead of admitting exactly 2 and rejecting 2. -/
theorem concurrent_over_admission :
    (runChecks emptyStore "client" "/p" 2 60 [1000, 1000, 1000, 1000]).1.map
        (fun r => r.isAllowed) = [true, true, true, true] ∧
    (runChecks emptyStore "client" "/p" 2 60 [1000, 1000, 1000, 1000]).1.map
        (fun r => r.currentCount) = [1, 2, 2, 2] ∧
    ((runChecks emptyStore "client" "/p" 2 60 [1000, 1000, 1000, 1000]).2
        (rateLimitKey "client" "/p")).members = [1000] := by
  decide

/-- C4: on any store failure the check returns the fail-open triple
(allowed, count 0, reset = now + window) with the store untouched, and the
middleware forwards every request to the downstream handler — no 429 and
no store-layer exception reaches the response. -/
theorem fail_open_on_store_error (st : Store) (c p : String)
    (maxRequests w : Nat) (now : Int) (dr dw : Nat) (handler : Response)
    (req : Request) :
    checkRateLimit true st c p maxRequests w now =
      (⟨true, 0, now + (w : Int)⟩, st) ∧
    (dispatch true dr dw handler req st now).handlerCalled = true ∧
    (dispatch true dr dw handler req st now).response.statusCode =
      handler.statusCode ∧
    (dispatch true dr dw handler req st now).response.body = handler.body := by
  refine ⟨rfl, ?_, ?_, ?_⟩ <;>
    · unfold dispatch
      split
      · rfl
      split
      · rfl
      rfl

/-- C6: a request to one of the four exempt paths is forwarded to the
handler with its response untouched (no rate-limit headers), the store is
not written, and the outcome does not depend on the store or the clock at
all. -/
theorem exempt_path_bypass (sf : Bool) (dr dw : Nat) (handler : Response)
    (req : Request) (st st2 : Store) (now now2 : Int)
    (h : req.path ∈ exemptPaths) :
    (dispatch sf dr dw handler req st now).response = handler ∧
    (dispatch sf dr dw handler req st now).handlerCalled = true ∧
    (∀ q, (dispatch sf dr dw handler req st now).store q = st q) ∧
    (dispatch sf dr dw handler req st2 now2).response = handler := by
  refine ⟨?_, ?_, ?_, ?_⟩ <;> simp [dispatch, h]

theorem exempt_path_bypass_witness :
    ("/health" : String) ∈ exemptPaths ∧
    (dispatch false 100 60 ⟨200, "ok", none, none, none, none⟩
      ⟨"/health", "9.9.9.9", 7⟩ emptyStore 1000).response =
      ⟨200, "ok", none, none, none, none⟩ := by
  refine ⟨by decide, ?_⟩
  exact (exempt_path_bypass false 100 60 ⟨200, "ok", none, none, none, none⟩
    ⟨"/health", "9.9.9.9", 7⟩ emptyStore emptyStore 1000 1000 (by decide)).1


theorem dispatch_not_exempt (sf : Bool) (dr dw : Nat) (handler : Response)
    (req : Request) (st : Store) (now : Int)
    (hpath : req.path ∉ exemptPaths) (hip : req.clientIp ∉ exemptIps) :
    dispatch sf dr dw handler req st now =
      (if (checkRateLimit sf st (getClientId req) req.path
            (getEndpointLimits dr dw req.path).requests
            (getEndpointLimits dr dw req.path).window now).1.isAllowed = false
       then ⟨⟨429, "\x7b\"detail\": \"Rate limit exceeded\"\x7d",
          some (toString (getEndpointLimits dr dw req.path).requests), some "0",
          some (toString (checkRateLimit sf st (getClientId req) req.path
            (getEndpointLimits dr dw req.path).requests
            (getEndpointLimits dr dw req.path).window now).1.resetTime),
          some (toString ((checkRateLimit sf st (getClientId req) req.path
            (getEndpointLimits dr dw req.path).requests
            (getEndpointLimits dr dw req.path).window now).1.resetTime - now))⟩,
         (checkRateLimit sf st (getClientId req) req.path
            (getEndpointLimits dr dw req.path).requests
            (getEndpointLimits dr dw req.path).window now).2, false⟩
       else ⟨{ handler with
          xLimit := some (toString (getEndpointLimits dr dw req.path).requests),
          xRemaining := some (toString
            (((getEndpointLimits dr dw req.path).requests : Int) -
             ((checkRateLimit sf st (getClientId req) req.path
                (getEndpointLimits dr dw req.path).requests
                (getEndpointLimits dr dw req.path).window now).1.currentCount : Int))),
          xReset := some (toString (checkRateLimit sf st (getClientId req) req.path
            (getEndpointLimits dr dw req.path).requests
            (getEndpointLimits dr dw req.path).window now).1.resetTime) },
         (checkRateLimit sf st (getClientId req) req.path
            (getEndpointLimits dr dw req.path).requests
            (getEndpointLimits dr dw req.path).window now).2, true⟩) := by
  unfold dispatch
  rw [if_neg hpath]
  have hex : isExemptUser req = false := by
    unfold isExemptUser
    exact decide_eq_false hip
  rw [hex]
  simp only [Bool.false_eq_true, if_false]


/-- C5: response shape and header accuracy.  On an admitted non-exempt
request with count C under limit L the response carries
X-RateLimit-Limit = L, X-RateLimit-Remaining = L − C (nonnegative since
admission implies C ≤ L) and X-RateLimit-Reset = now + W; on rejection the
response is a 429 with body \x7b"detail": "Rate limit exceeded"\x7d,
Remaining = 0, and Retry-After equal to the window W, a positive integer
bounded by W. -/
theorem response_headers (dr dw : Nat) (handler : Response) (req : Request)
    (st : Store) (now : Int)
    (hpath : req.path ∉ exemptPaths) (hip : req.clientIp ∉ exemptIps)
    (hdw : 0 < dw) :
    ((checkRateLimit false st (getClientId req) req.path
        (getEndpointLimits dr dw req.path).requests
        (getEndpointLimits dr dw req.path).window now).1.isAllowed = true →
      (dispatch false dr dw handler req st now).response =
        { handler with
          xLimit := some (toString (getEndpointLimits dr dw req.path).requests),
          xRemaining := some (toString
            (((getEndpointLimits dr dw req.path).requests : Int) -
             ((checkRateLimit false st (getClientId req) req.path
                (getEndpointLimits dr dw req.path).requests
                (getEndpointLimits dr dw req.path).window now).1.currentCount : Int))),
          xReset := some (toString
            (now + ((getEndpointLimits dr dw req.path).window : Int))) } ∧
      (checkRateLimit false st (getClientId req) req.path
        (getEndpointLimits dr dw req.path).requests
        (getEndpointLimits dr dw req.path).window now).1.currentCount ≤
        (getEndpointLimits dr dw req.path).requests ∧
      (dispatch false dr dw handler req st now).handlerCalled = true) ∧
    ((checkRateLimit false st (getClientId req) req.path
        (getEndpointLimits dr dw req.path).requests
        (getEndpointLimits dr dw req.path).window now).1.isAllowed = false →
      (dispatch false dr dw handler req st now).response.statusCode = 429 ∧
      (dispatch false dr dw handler req st now).response.body =
        "\x7b\"detail\": \"Rate limit exceeded\"\x7d" ∧
      (dispatch false dr dw handler req st now).response.xLimit =
        some (toString (getEndpointLimits dr dw req.path).requests) ∧
      (dispatch false dr dw handler req st now).response.xRemaining = some "0" ∧
      (dispatch false dr dw handler req st now).response.xReset =
        some (toString (now + ((getEndpointLimits dr dw req.path).window : Int))) ∧
      (dispatch false dr dw handler req st now).response.retryAfter =
        some (toString ((getEndpointLimits dr dw req.path).window : Int)) ∧
      0 < (getEndpointLimits dr dw req.path).window ∧
      (dispatch false dr dw handler req st now).handlerCalled = false) := by
  have hres : (checkRateLimit false st (getClientId req) req.path
      (getEndpointLimits dr dw req.path).requests
      (getEndpointLimits dr dw req.path).window now).1.resetTime =
      now + ((getEndpointLimits dr dw req.path).window : Int) := rfl
  have hdisp := dispatch_not_exempt false dr dw handler req st now hpath hip
  constructor
  · intro hall
    rw [hdisp, if_neg (by rw [hall]; exact fun h => Bool.true_eq_false.mp h)]
    refine ⟨rfl, ?_, rfl⟩
    exact of_decide_eq_true hall
  · intro hrej
    rw [hdisp, if_pos hrej]
    refine ⟨rfl, rfl, rfl, rfl, rfl, ?_, ?_, rfl⟩
    · rw [hres]
      rw [add_sub_cancel_left]
    · exact getEndpointLimits_window_pos dr dw req.path hdw

theorem response_headers_witness :
    (("/api/v1/auth/login" : String) ∉ exemptPaths) ∧
    (("8.8.8.8" : String) ∉ exemptIps) ∧ 0 < 60 ∧
    (dispatch false 100 60 ⟨200, "ok", none, none, none, none⟩
      ⟨"/api/v1/auth/login", "8.8.8.8", 3⟩ emptyStore 1000).response =
      ⟨200, "ok", some "5", some "4", some "1060", none⟩ := by
  refine ⟨by decide, by decide, by decide, ?_⟩
  have h := (response_headers 100 60 ⟨200, "ok", none, none, none, none⟩
    ⟨"/api/v1/auth/login", "8.8.8.8", 3⟩ emptyStore 1000
    (by decide) (by decide) (by decide)).1 (by decide)
  rw [h.1]
  rfl

/-- C9: each request is recorded under the member str(current_time), so a
key's log holds at most one entry per integer second: a second request in
the same second overwrites rather than adds (the key's state is unchanged),
and the counted size under-counts the requests made — three requests in one
second report counts 1, 2, 2 and leave a single stored entry. -/
theorem same_second_single_entry (st : Store) (c p : String) (maxRequests w : Nat)
    (now : Int) (hw : 0 < w)
    (hnd : ((st (rateLimitKey c p)).members).Nodup) :
    (((checkRateLimit false st c p maxRequests w now).2 (rateLimitKey c p)).members).Nodup ∧
    now ∈ ((checkRateLimit false st c p maxRequests w now).2 (rateLimitKey c p)).members ∧
    (((checkRateLimit false st c p maxRequests w now).2 (rateLimitKey c p)).members).count now = 1 ∧
    ((checkRateLimit false ((checkRateLimit false st c p maxRequests w now).2)
        c p maxRequests w now).2 (rateLimitKey c p)) =
      ((checkRateLimit false st c p maxRequests w now).2 (rateLimitKey c p)) ∧
    (runChecks emptyStore c p maxRequests w [now, now, now]).1.map
        (fun r => r.currentCount) = [1, 2, 2] ∧
    (((runChecks emptyStore c p maxRequests w [now, now, now]).2
        (rateLimitKey c p)).members) = [now] := by
  have hpred := trim_self_mem w now hw
  have hTnd : (zremrangebyscore 0 (now - (w : Int))
      (st (rateLimitKey c p)).members).Nodup := List.Nodup.filter _ hnd
  have h1nd : (((checkRateLimit false st c p maxRequests w now).2
      (rateLimitKey c p)).members).Nodup := by
    rw [checkRateLimit_store_self]
    exact zadd_nodup _ _ hTnd
  have h1mem : now ∈ ((checkRateLimit false st c p maxRequests w now).2
      (rateLimitKey c p)).members := by
    rw [checkRateLimit_store_self]
    exact (mem_zadd _ _ _).mpr (Or.inr rfl)
  have h2 : zremrangebyscore 0 (now - (w : Int)) [now] = [now] := by
    simp [zremrangebyscore]
    omega
  have h3 : zadd now [now] = [now] := zadd_mem_eq now [now] (List.mem_singleton_self now)
  have s1 : checkRateLimit false emptyStore c p maxRequests w now =
      (⟨decide (1 ≤ maxRequests), 1, now + (w : Int)⟩,
       emptyStore.set (rateLimitKey c p) ⟨[now], some w⟩) := rfl
  have sstep : ∀ st' : Store, st' (rateLimitKey c p) = ⟨[now], some w⟩ →
      checkRateLimit false st' c p maxRequests w now =
        (⟨decide (2 ≤ maxRequests), 2, now + (w : Int)⟩,
         st'.set (rateLimitKey c p) ⟨[now], some w⟩) := by
    intro st' hst'
    show ((checkPipeline maxRequests w now (st' (rateLimitKey c p))).1,
      st'.set (rateLimitKey c p)
        (checkPipeline maxRequests w now (st' (rateLimitKey c p))).2) = _
    rw [hst']
    simp only [checkPipeline, h2, h3, zcard]
    norm_num
  have run3 : runChecks emptyStore c p maxRequests w [now, now, now] =
      ([⟨decide (1 ≤ maxRequests), 1, now + (w : Int)⟩,
        ⟨decide (2 ≤ maxRequests), 2, now + (w : Int)⟩,
        ⟨decide (2 ≤ maxRequests), 2, now + (w : Int)⟩],
       ((emptyStore.set (rateLimitKey c p) ⟨[now], some w⟩).set
          (rateLimitKey c p) ⟨[now], some w⟩).set
          (rateLimitKey c p) ⟨[now], some w⟩) := by
    simp only [runChecks, s1]
    rw [sstep _ (Store.set_self _ _ _)]
    rw [sstep _ (Store.set_self _ _ _)]
  refine ⟨h1nd, h1mem, List.count_eq_one_of_mem h1nd h1mem, ?_, ?_, ?_⟩
  · simp only [checkRateLimit_store_self]
    have hfix : zremrangebyscore 0 (now - (w : Int))
        (zadd now (zremrangebyscore 0 (now - (w : Int))
          (st (rateLimitKey c p)).members)) =
        zadd now (zremrangebyscore 0 (now - (w : Int))
          (st (rateLimitKey c p)).members) := by
      refine List.filter_eq_self.mpr ?_
      intro a ha
      rcases (mem_zadd a now _).mp ha with h | h
      · exact (List.mem_filter.mp h).2
      · subst h; exact hpred
    show (⟨zadd now (zremrangebyscore 0 (now - (w : Int))
        (zadd now (zremrangebyscore 0 (now - (w : Int))
          (st (rateLimitKey c p)).members))), some w⟩ : KeyState) = _
    rw [hfix, zadd_mem_eq now _ ((mem_zadd now now _).mpr (Or.inr rfl))]
    rfl
  · rw [run3]
    rfl
  · rw [run3]
    show (Store.set _ (rateLimitKey c p) ⟨[now], some w⟩ (rateLimitKey c p)).members = [now]
    rw [Store.set_self]

theorem same_second_single_entry_witness :
    0 < 60 ∧ List.Nodup ((emptyStore (rateLimitKey "c" "/p")).members) ∧
    (runChecks emptyStore "c" "/p" 5 60 [1000, 1000, 1000]).1.map
        (fun r => r.currentCount) = [1, 2, 2] := by
  refine ⟨by decide, by decide, ?_⟩
  exact (same_second_single_entry emptyStore "c" "/p" 5 60 1000 (by decide)
    (by decide)).2.2.2.2.1


theorem data_append (a b : String) : (a ++ b).data = a.data ++ b.data := rfl

theorem colon_split_inj : ∀ (c1 c2 p1 p2 : List Char),
    '/' ∉ c1 → '/' ∉ c2 → p1.head? = some '/' → p2.head? = some '/' →
    c1 ++ ':' :: p1 = c2 ++ ':' :: p2 → c1 = c2 ∧ p1 = p2 := by
  intro c1
  induction c1 with
  | nil =>
    intro c2 p1 p2 h1 h2 hp1 hp2 he
    cases c2 with
    | nil =>
      simp only [List.nil_append, List.cons.injEq, true_and] at he
      exact ⟨rfl, he⟩
    | cons b c2t =>
      simp only [List.nil_append, List.cons_append, List.cons.injEq] at he
      obtain ⟨hb, ht⟩ := he
      cases c2t with
      | nil =>
        rw [ht] at hp1
        simp only [List.nil_append, List.head?_cons, Option.some.injEq] at hp1
        exact absurd hp1 (by decide)
      | cons d c2tt =>
        rw [ht] at hp1
        simp only [List.cons_append, List.head?_cons, Option.some.injEq] at hp1
        refine absurd ?_ h2
        rw [hp1]
        exact List.mem_cons_of_mem b (List.mem_cons_self _ _)
  | cons a c1t ih =>
    intro c2 p1 p2 h1 h2 hp1 hp2 he
    cases c2 with
    | nil =>
      simp only [List.nil_append, List.cons_append, List.cons.injEq] at he
      obtain ⟨hb, ht⟩ := he
      cases c1t with
      | nil =>
        rw [← ht] at hp2
        simp only [List.nil_append, List.head?_cons, Option.some.injEq] at hp2
        exact absurd hp2 (by decide)
      | cons d c1tt =>
        rw [← ht] at hp2
        simp only [List.cons_append, List.head?_cons, Option.some.injEq] at hp2
        refine absurd ?_ h1
        rw [hp2]
        exact List.mem_cons_of_mem a (List.mem_cons_self _ _)
    | cons b c2t =>
      simp only [List.cons_append, List.cons.injEq] at he
      obtain ⟨hab, ht⟩ := he
      have hrec := ih c2t p1 p2 (fun hm => h1 (List.mem_cons_of_mem a hm))
        (fun hm => h2 (List.mem_cons_of_mem b hm)) hp1 hp2 ht
      exact ⟨by rw [hab, hrec.1], hrec.2⟩

theorem rateLimitKey_inj (c1 p1 c2 p2 : String)
    (h1 : '/' ∉ c1.data) (h2 : '/' ∉ c2.data)
    (hp1 : p1.data.head? = some '/') (hp2 : p2.data.head? = some '/')
    (he : rateLimitKey c1 p1 = rateLimitKey c2 p2) : c1 = c2 ∧ p1 = p2 := by
  have hcolon : (":" : String).data = [':'] := rfl
  have hd := congrArg String.data he
  simp only [rateLimitKey, data_append, hcolon, List.append_assoc,
    List.singleton_append] at hd
  have htail := List.append_cancel_left hd
  have hsplit := colon_split_inj c1.data c2.data p1.data p2.data h1 h2 hp1 hp2 htail
  exact ⟨String.ext hsplit.1, String.ext hsplit.2⟩

/-- C8: per-key independence.  The admission decision reads and the check
writes only the store entry for its own key; for two distinct limiter keys
(different derived client identity or different endpoint path, with the
derived identity free of slashes and the path starting with one, as in any
HTTP request), a request — or any sequence of requests — under key A never
changes the state, count, admission outcome or expiry of key B. -/
theorem per_key_independence (ipA ipB : String) (uaA uaB : Int) (pA pB : String)
    (hcA : '/' ∉ (getClientId ⟨pA, ipA, uaA⟩).data)
    (hcB : '/' ∉ (getClientId ⟨pB, ipB, uaB⟩).data)
    (hpA : pA.data.head? = some '/') (hpB : pB.data.head? = some '/')
    (hne : ¬(getClientId ⟨pA, ipA, uaA⟩ = getClientId ⟨pB, ipB, uaB⟩ ∧ pA = pB))
    (sf : Bool) (st : Store) (mA wA mB wB : Nat) (tA tB : Int) :
    ((checkRateLimit sf st (getClientId ⟨pA, ipA, uaA⟩) pA mA wA tA).2
        (rateLimitKey (getClientId ⟨pB, ipB, uaB⟩) pB) =
      st (rateLimitKey (getClientId ⟨pB, ipB, uaB⟩) pB)) ∧
    ((checkRateLimit sf
        ((checkRateLimit sf st (getClientId ⟨pA, ipA, uaA⟩) pA mA wA tA).2)
        (getClientId ⟨pB, ipB, uaB⟩) pB mB wB tB).1 =
      (checkRateLimit sf st (getClientId ⟨pB, ipB, uaB⟩) pB mB wB tB).1) ∧
    (∀ q, q ≠ rateLimitKey (getClientId ⟨pA, ipA, uaA⟩) pA →
      (checkRateLimit sf st (getClientId ⟨pA, ipA, uaA⟩) pA mA wA tA).2 q = st q) ∧
    (∀ st' : Store,
      st' (rateLimitKey (getClientId ⟨pA, ipA, uaA⟩) pA) =
        st (rateLimitKey (getClientId ⟨pA, ipA, uaA⟩) pA) →
      (checkRateLimit sf st' (getClientId ⟨pA, ipA, uaA⟩) pA mA wA tA).1 =
        (checkRateLimit sf st (getClientId ⟨pA, ipA, uaA⟩) pA mA wA tA).1) ∧
    (∀ ts : List Int,
      (runChecks st (getClientId ⟨pA, ipA, uaA⟩) pA mA wA ts).2
          (rateLimitKey (getClientId ⟨pB, ipB, uaB⟩) pB) =
        st (rateLimitKey (getClientId ⟨pB, ipB, uaB⟩) pB)) := by
  have hkeyAB : rateLimitKey (getClientId ⟨pB, ipB, uaB⟩) pB ≠
      rateLimitKey (getClientId ⟨pA, ipA, uaA⟩) pA := by
    intro h
    exact hne ⟨(rateLimitKey_inj _ _ _ _ hcA hcB hpA hpB h.symm).1,
      (rateLimitKey_inj _ _ _ _ hcA hcB hpA hpB h.symm).2⟩
  have hother : ∀ (sfx : Bool) (stx : Store) (q : String),
      q ≠ rateLimitKey (getClientId ⟨pA, ipA, uaA⟩) pA →
      (checkRateLimit sfx stx (getClientId ⟨pA, ipA, uaA⟩) pA mA wA tA).2 q = stx q := by
    intro sfx stx q hq
    cases sfx with
    | true => rfl
    | false => exact checkRateLimit_store_other stx _ _ q mA wA tA hq
  have hrunB : ∀ (ts : List Int) (st0 : Store),
      (runChecks st0 (getClientId ⟨pA, ipA, uaA⟩) pA mA wA ts).2
          (rateLimitKey (getClientId ⟨pB, ipB, uaB⟩) pB) =
        st0 (rateLimitKey (getClientId ⟨pB, ipB, uaB⟩) pB) := by
    intro ts
    induction ts with
    | nil => intro st0; rfl
    | cons t tsx ih =>
      intro st0
      show (runChecks _ _ _ _ _ tsx).2 _ = _
      rw [ih _]
      exact checkRateLimit_store_other st0 _ _ _ mA wA t hkeyAB
  have hB : (checkRateLimit sf st (getClientId ⟨pA, ipA, uaA⟩) pA mA wA tA).2
      (rateLimitKey (getClientId ⟨pB, ipB, uaB⟩) pB) =
      st (rateLimitKey (getClientId ⟨pB, ipB, uaB⟩) pB) :=
    hother sf st _ hkeyAB
  refine ⟨hB, ?_, fun q hq => hother sf st q hq, ?_, ?_⟩
  · cases sf with
    | true => rfl
    | false =>
      rw [checkRateLimit_fst, checkRateLimit_fst, hB]
  · intro st' hst'
    cases sf with
    | true => rfl
    | false =>
      rw [checkRateLimit_fst, checkRateLimit_fst, hst']
  · intro ts
    exact hrunB ts st

theorem per_key_independence_witness :
    ('/' ∉ (getClientId ⟨"/a", "1.2.3.4", 5⟩).data) ∧
    ("/a" : String).data.head? = some '/' ∧
    ¬(getClientId ⟨"/a", "1.2.3.4", 5⟩ = getClientId ⟨"/b", "1.2.3.4", 5⟩ ∧
      ("/a" : String) = "/b") ∧
    ((checkRateLimit false emptyStore (getClientId ⟨"/a", "1.2.3.4", 5⟩)
        "/a" 5 60 100).2 (rateLimitKey (getClientId ⟨"/b", "1.2.3.4", 5⟩) "/b") =
      emptyStore (rateLimitKey (getClientId ⟨"/b", "1.2.3.4", 5⟩) "/b")) := by
  refine ⟨by decide, by decide, by decide, ?_⟩
  exact (per_key_independence "1.2.3.4" "1.2.3.4" 5 5 "/a" "/b" (by decide)
    (by decide) (by decide) (by decide) (by decide) false emptyStore
    5 60 5 60 100 100).1

end RateLimiter
